import Mathlib

/-!
Shallow embedding of the superchain-client core (src/src/ws.rs, src/src/http.rs,
src/src/types.rs, src/src/error.rs) and proofs about its claims.

Machine bytes are modelled as `Nat` (with explicit masking/wrapping where the
source uses `u8`/`u32` arithmetic); `Vec<u8>` becomes `List Nat`; fallible Rust
functions returning `Result` become `Except Error`.
-/

set_option maxRecDepth 10000

namespace Superchain

/-- Error kinds, from src/src/error.rs (`custom` is the `Error::Custom` variant
used by `ws::Client::get_height`; transport-library errors are collapsed into
`tungstenite`, whose payload the client never inspects). -/
inductive Error where
  | unexpectedMessage
  | unexpectedMessageFormat
  | unknownResponseId
  | maxConcurrentRequestLimitReached
  | backendShutDown
  | errorMsg : String → Error
  | connectionClosed
  | custom : String → Error
  | tungstenite
deriving DecidableEq, Repr

namespace MsgMarker

/-- Bit 0x01, from the `bitflags!` block of src/src/ws.rs. -/
def START : Nat := 0x01

/-- Bit 0x02. -/
def CONTINUE : Nat := 0x02

/-- Bit 0x04. -/
def END : Nat := 0x04

/-- Bit 0x40. -/
def SUBSCRIPTION : Nat := 0x40

/-- Bit 0x80. -/
def ERROR : Nat := 0x80

/-- The union of all defined marker bits (`MsgMarker::all()`), 0xC7. -/
def allBits : Nat := 0xC7

/-- Model of `MsgMarker::from_bits`: succeeds exactly when every set bit of `b`
is a defined flag. For byte inputs this is the bitflags check
`b & !all == 0`, stated as bit subsetting so it is also meaningful on `Nat`. -/
def from_bits (b : Nat) : Option Nat :=
  if b &&& allBits = b then some b else none

/-- Model of `MsgMarker::contains` for a one-bit flag `f`. -/
def hasBits (m f : Nat) : Bool := m &&& f == f

end MsgMarker

/-- The decoded trailing frame header of src/src/ws.rs (`struct Header`). -/
structure Header where
  marker : Nat
  id : Nat
  counter : Nat
deriving DecidableEq, Repr

namespace Header

/-- `Header::SIZE`. -/
def SIZE : Nat := 6

/-- Model of `Header::try_from_data`: split the trailing 6 bytes off `data`,
validate the marker byte, and return the header together with the remaining
prefix as the payload. -/
def try_from_data (data : List Nat) : Except Error (Header × List Nat) :=
  let data_len := data.length
  if data_len < SIZE then
    .error .unexpectedMessageFormat
  else
    match MsgMarker.from_bits (data.getD (data_len - 6) 0) with
    | none => .error .unexpectedMessageFormat
    | some marker =>
        .ok ({ marker := marker
               id := data.getD (data_len - 5) 0
               counter :=
                 data.getD (data_len - 4) 0 * 2 ^ 24 +
                 data.getD (data_len - 3) 0 * 2 ^ 16 +
                 data.getD (data_len - 2) 0 * 2 ^ 8 +
                 data.getD (data_len - 1) 0 },
             data.take (data_len - 6))

end Header

instance {ε α : Type} [DecidableEq ε] [DecidableEq α] : DecidableEq (Except ε α) :=
  fun x y =>
  match x, y with
  | .ok a, .ok b =>
      if h : a = b then isTrue (by rw [h]) else isFalse (fun hc => h (Except.ok.inj hc))
  | .ok _, .error _ => isFalse (fun hc => Except.noConfusion hc)
  | .error _, .ok _ => isFalse (fun hc => Except.noConfusion hc)
  | .error e, .error f =>
      if h : e = f then isTrue (by rw [h]) else isFalse (fun hc => h (Except.error.inj hc))

/-- An item pushed into a subscription sink: the `WsMsg = Result<Vec<u8>>` of
src/src/ws.rs. -/
abbrev WsMsg : Type := Except Error (List Nat)

/-- The mutable state of `BackGroundWorker` that the claims are about: the
256-slot subscription table (a slot holds the caller's sink, modelled by an
abstract sink type `σ`) and the `next_id` allocation hint. -/
structure WorkerState (σ : Type) where
  subscriptions : List (Option σ)
  next_id : Nat
deriving DecidableEq, Repr

/-- The state built by `BackGroundWorker::new`: 256 empty slots, `next_id = 0`. -/
def initState (σ : Type) : WorkerState σ :=
  { subscriptions := List.replicate 256 none, next_id := 0 }

/-- Model of `BackGroundWorker::allocate_id`. Returns the post-call state and
the allocated id (or `MaxConcurrentRequestLimitReached`). On the failure path
the `?` in the source returns before `next_id` is touched, so the state is
returned unchanged there. -/
def allocate_id {σ : Type} (st : WorkerState σ) :
    WorkerState σ × Except Error Nat :=
  match st.subscriptions.getD st.next_id none with
  | none =>
      ({ st with next_id := (st.next_id + 1) % 256 }, .ok st.next_id)
  | some _ =>
      match st.subscriptions.findIdx? (fun opt => opt.isNone) with
      | some i => ({ st with next_id := (st.next_id + 1) % 256 }, .ok i)
      | none => (st, .error .maxConcurrentRequestLimitReached)

/-- Model of `BackGroundWorker::send_request`. `sendOk` stands for the success
of the websocket send of the encoded request (the CBOR payload itself plays no
role in the table's evolution). Returns the post-call state, the id returned by
a successful `allocate_id` call (if any), and the call's result. -/
def send_request {σ : Type} (st : WorkerState σ) (sender : σ) (sendOk : Bool) :
    WorkerState σ × Option Nat × Except Error Unit :=
  match allocate_id st with
  | (st1, .error e) => (st1, none, .error e)
  | (st1, .ok id) =>
      let st2 := { st1 with subscriptions := st1.subscriptions.set id (some sender) }
      if sendOk then
        (st2, some id, .ok ())
      else
        ({ st2 with subscriptions := st2.subscriptions.set id none },
         some id, .error .tungstenite)

/-- Model of the binary-message branch of `BackGroundWorker::handle_msg`,
parametric in `fromUtf8` (the Rust `String::from_utf8`). Returns the post-call
state, the item pushed into a sink (with the slot id), if any, and the call's
result. -/
def handle_frame {σ : Type} (fromUtf8 : List Nat → Option String)
    (st : WorkerState σ) (data : List Nat) :
    WorkerState σ × Option (Nat × WsMsg) × Except Error Unit :=
  match Header.try_from_data data with
  | .error e => (st, none, .error e)
  | .ok (header, payload) =>
      if MsgMarker.hasBits header.marker MsgMarker.END then
        ({ st with subscriptions := st.subscriptions.set header.id none },
         none, .ok ())
      else if MsgMarker.hasBits header.marker MsgMarker.START then
        (st, none, .ok ())
      else
        let msg : WsMsg :=
          if MsgMarker.hasBits header.marker MsgMarker.ERROR then
            match fromUtf8 payload with
            | some s => .error (.errorMsg s)
            | none => .error .unexpectedMessageFormat
          else if MsgMarker.hasBits header.marker MsgMarker.CONTINUE then
            .ok payload
          else
            .error .unexpectedMessageFormat
        match st.subscriptions.getD header.id none with
        | none => (st, none, .error .unknownResponseId)
        | some _ => (st, some (header.id, msg), .ok ())

/-- An event acting on the subscription table: an outbound operation request
handled by `send_request` (with the success of the underlying socket send), or
an inbound binary websocket frame handled by `handle_msg`. The other message
kinds handled by `handle_msg` (Ping, Pong, Close, Text) never read or write
the table, so they play no role in the table claims. -/
inductive Event (σ : Type) where
  | op : σ → Bool → Event σ
  | frame : List Nat → Event σ
deriving DecidableEq, Repr

/-- One call on the worker state, keeping the post-call state even when the
call returns an error, together with the id returned by a successful
`allocate_id` call inside `send_request` (if any). -/
def stepCall {σ : Type} (fromUtf8 : List Nat → Option String)
    (st : WorkerState σ) : Event σ → WorkerState σ × Option Nat
  | .op sender sendOk => ((send_request st sender sendOk).1, (send_request st sender sendOk).2.1)
  | .frame data => ((handle_frame fromUtf8 st data).1, none)

/-- One iteration of the `run` event loop: the `?` operators in `run` propagate
any error out of the loop. -/
def stepLoop {σ : Type} (fromUtf8 : List Nat → Option String)
    (st : WorkerState σ) : Event σ → Except Error (WorkerState σ)
  | .op sender sendOk =>
      match send_request st sender sendOk with
      | (st1, _, .ok ()) => .ok st1
      | (_, _, .error e) => .error e
  | .frame data =>
      match handle_frame fromUtf8 st data with
      | (st1, _, .ok ()) => .ok st1
      | (_, _, .error e) => .error e

/-- The `BackGroundWorker::run` event loop over a finite schedule of events:
returns `.ok` with the final state when the schedule is exhausted (the inbound
stream or the operation channel ends), and stops with the first error any
iteration propagates. -/
def runLoop {σ : Type} (fromUtf8 : List Nat → Option String)
    (st : WorkerState σ) : List (Event σ) → Except Error (WorkerState σ)
  | [] => .ok st
  | e :: rest =>
      match stepLoop fromUtf8 st e with
      | .error err => .error err
      | .ok st1 => runLoop fromUtf8 st1 rest

/-- The worker state after a sequence of calls (states persist across calls,
whether or not each call returned an error). -/
def statesAfter {σ : Type} (fromUtf8 : List Nat → Option String)
    (st : WorkerState σ) (events : List (Event σ)) : WorkerState σ :=
  events.foldl (fun s e => (stepCall fromUtf8 s e).1) st

/-- The id allocated by the event at position `t` of the sequence, if that
event was a request whose `allocate_id` call succeeded. -/
def allocAt {σ : Type} (fromUtf8 : List Nat → Option String)
    (st : WorkerState σ) (events : List (Event σ)) (t : Nat) : Option Nat :=
  match events[t]? with
  | some e => (stepCall fromUtf8 (statesAfter fromUtf8 st (events.take t)) e).2
  | none => none

/-- The slot of the table at index `k` (empty when out of range, which cannot
arise for the length-256 tables the worker maintains). -/
def slotAt {σ : Type} (st : WorkerState σ) (k : Nat) : Option σ :=
  st.subscriptions.getD k none

/-- Well-formedness maintained by the worker: the table has exactly 256 slots
and the `next_id` hint is a `u8` value. -/
def WF {σ : Type} (st : WorkerState σ) : Prop :=
  st.subscriptions.length = 256 ∧ st.next_id < 256

/-- The event is an inbound binary frame that decodes successfully, carries the
`END` marker bit and references id `k`. -/
def EndsFor {σ : Type} (k : Nat) (e : Event σ) : Prop :=
  ∃ data h p, e = Event.frame data ∧ Header.try_from_data data = .ok (h, p) ∧
    MsgMarker.hasBits h.marker MsgMarker.END = true ∧ h.id = k

/-- Little-endian interpretation of a byte list (byte 0 is least significant),
as `u64::from_le_bytes`. -/
def u64_from_le_bytes (bytes : List Nat) : Nat :=
  bytes.foldr (fun b acc => b + 256 * acc) 0

/-- Big-endian interpretation of a byte list, as `u64::from_be_bytes`. -/
def u64_from_be_bytes (bytes : List Nat) : Nat :=
  bytes.foldl (fun acc b => 256 * acc + b) 0

/-- Host-order interpretation of a byte list, as `u64::from_ne_bytes`, with the
host byte order made explicit. -/
def u64_from_ne_bytes (littleEndian : Bool) (bytes : List Nat) : Nat :=
  if littleEndian then u64_from_le_bytes bytes else u64_from_be_bytes bytes

/-- Model of `ws::Client::get_height`, applied to the contents of the raw
response stream it reads (each item is a `Result<Vec<u8>>` pushed into the
subscription sink). `littleEndian` fixes the host byte order used by
`u64::from_ne_bytes`. -/
def ws_get_height (stream : List WsMsg) (littleEndian : Bool) :
    Except Error Nat :=
  match stream with
  | [] => .error (.custom "empty response from websocket")
  | .error e :: _ => .error e
  | .ok bytes :: _ =>
      if bytes.length = 8 then
        .ok (u64_from_ne_bytes littleEndian bytes)
      else
        .error (.custom "failed to collect bytes for height bytes")

/-- The trade direction of src/src/types.rs. -/
inductive Side where
  | Buy
  | Sell
deriving DecidableEq, Repr

/-- Model of the serde-derived deserializer for `Side` applied to a wire
string. The derive carries `rename` attributes, so the wire name of `Buy` is
exactly "true" and the wire name of `Sell` is exactly "false"; any other
string is an unknown-variant error (`none`). -/
def Side.deserialize (s : String) : Option Side :=
  if s = "true" then some Side.Buy
  else if s = "false" then some Side.Sell
  else none

/-- The configuration of the HTTP client of src/src/http.rs: the default
header map set by `with_default_headers` (empty after `new`) and the base URL
given to `new`. -/
structure HttpClient where
  headers : List (String × String)
  base_url : String
deriving DecidableEq, Repr

/-- A GET request as the HTTP client hands it to the underlying `reqwest`
client: the URL argument of `get` and the header map attached via `headers`
(empty when the code attaches none). -/
structure HttpRequest where
  url : String
  headers : List (String × String)
deriving DecidableEq, Repr

/-- Model of `http::Client::request`'s request construction: GET on the URL
the caller resolved under `base_url`, with the client's default header map
attached. -/
def http_request_built (c : HttpClient) (url : String) : HttpRequest :=
  { url := url, headers := c.headers }

/-- Model of `http::Client::get_height`'s request construction: the source
passes the literal string "/api/eth/height" straight to `reqwest::Client::get`
without joining it to `base_url` and without a `.headers(..)` call, so the
request carries an empty header map and a URL independent of the client's
configuration. -/
def http_get_height_request (_c : HttpClient) : HttpRequest :=
  { url := "/api/eth/height", headers := [] }

/-- A UTF-8 decoder stub used to instantiate the parametric model in concrete
evaluations whose control flow never reaches the decoder. -/
def noUtf8 : List Nat → Option String := fun _ => none

/-- A well-formed worker state with slots 0..254 occupied, slot 255 empty and
`next_id` at 255 (the state reached from `initState` by 255 successful
requests). -/
def reuseState : WorkerState Nat :=
  { subscriptions := List.replicate 255 (some 0) ++ [none], next_id := 255 }

/-- On `reuseState`: a successful request (allocating id 255), an inbound END
frame for id 255, and another successful request. -/
def reuseEvents : List (Event Nat) :=
  [Event.op 1 true, Event.frame [4, 255, 0, 0, 0, 0], Event.op 2 true]

/-- A call sequence from the initial state: one successful request (allocating
id 0), 255 requests whose socket send fails (each allocating and releasing one
id, stepping `next_id` all the way around the 8-bit range), an inbound END
frame for id 0, and a final successful request. -/
def demoEvents : List (Event Nat) :=
  [Event.op 0 true] ++ List.replicate 255 (Event.op 0 false) ++
    [Event.frame [4, 0, 0, 0, 0, 1], Event.op 1 true]

/-- A worker state whose 256 slots are all occupied. -/
def fullState : WorkerState Nat :=
  { subscriptions := List.replicate 256 (some 0), next_id := 0 }

/-- An HTTP client configured with a base URL and a non-empty default header
map. -/
def authedClient : HttpClient :=
  { headers := [("authorization", "Basic dXNlcjpwYXNz")]
    base_url := "http://localhost:8097/" }

end Superchain

theorem findIdx?_first (p : α → Bool) :
    ∀ (l : List α) (j : Nat), l.findIdx? p = some j →
      ∃ a, l[j]? = some a ∧ p a = true := by
  intro l
  induction l with
  | nil => intro j h; simp [List.findIdx?] at h
  | cons x xs ih =>
    intro j h
    rw [List.findIdx?_cons] at h
    by_cases hp : p x
    · simp [hp] at h
      subst h
      exact ⟨x, by simp, hp⟩
    · simp [hp] at h
      obtain ⟨a, ha, hj⟩ := h
      obtain ⟨b, hb, hpb⟩ := ih a ha
      subst hj
      exact ⟨b, by simpa using hb, hpb⟩

namespace Superchain

theorem getD_set_ne {σ : Type} (l : List (Option σ)) (i k : Nat) (a : Option σ)
    (h : i ≠ k) : (l.set i a).getD k none = l.getD k none := by
  rw [List.getD_eq_getElem?_getD, List.getD_eq_getElem?_getD, List.getElem?_set_ne h]

theorem getD_set_self {σ : Type} (l : List (Option σ)) (k : Nat) (a : Option σ)
    (h : k < l.length) : (l.set k a).getD k none = a := by
  rw [List.getD_eq_getElem?_getD, List.getElem?_set_eq_of_lt a h]
  rfl

theorem set_none_of_getD_none {σ : Type} :
    ∀ (l : List (Option σ)) (i : Nat), l.getD i none = none → l.set i none = l := by
  intro l
  induction l with
  | nil => intro i _; rfl
  | cons x xs ih =>
    intro i h
    match i with
    | 0 => simp [List.getD] at h ⊢; exact h.symm
    | i + 1 =>
      simp [List.getD] at h ⊢
      exact ih i (by rw [List.getD_eq_getElem?_getD]; exact h)

theorem allocate_id_empty {σ : Type} (st : WorkerState σ) (k : Nat)
    (h : (allocate_id st).2 = .ok k) : slotAt st k = none := by
  unfold allocate_id at h
  cases hslot : st.subscriptions.getD st.next_id none with
  | none =>
      rw [hslot] at h
      simp at h
      subst h
      exact hslot
  | some s =>
      rw [hslot] at h
      cases hfind : st.subscriptions.findIdx? (fun opt => opt.isNone) with
      | none => rw [hfind] at h; simp at h
      | some i =>
          rw [hfind] at h
          simp at h
          subst h
          obtain ⟨a, ha, hpa⟩ := findIdx?_first _ _ _ hfind
          simp at hpa
          subst hpa
          unfold slotAt
          rw [List.getD_eq_getElem?_getD, ha]
          rfl

theorem allocate_id_subs {σ : Type} (st : WorkerState σ) :
    (allocate_id st).1.subscriptions = st.subscriptions := by
  unfold allocate_id
  cases hslot : st.subscriptions.getD st.next_id none with
  | none => rfl
  | some s =>
      cases hfind : st.subscriptions.findIdx? (fun opt => opt.isNone) <;> rfl

theorem allocate_id_lt {σ : Type} (st : WorkerState σ) (k : Nat)
    (hwf : WF st) (h : (allocate_id st).2 = .ok k) : k < 256 := by
  unfold allocate_id at h
  cases hslot : st.subscriptions.getD st.next_id none with
  | none =>
      rw [hslot] at h
      simp at h
      subst h
      exact hwf.2
  | some s =>
      rw [hslot] at h
      cases hfind : st.subscriptions.findIdx? (fun opt => opt.isNone) with
      | none => rw [hfind] at h; simp at h
      | some i =>
          rw [hfind] at h
          simp at h
          subst h
          obtain ⟨a, ha, _⟩ := findIdx?_first _ _ _ hfind
          obtain ⟨hlt, -⟩ := List.getElem?_eq_some_iff.mp ha
          rw [hwf.1] at hlt
          exact hlt

end Superchain

namespace Superchain

theorem allocate_id_full {σ : Type} (st : WorkerState σ)
    (hwf : WF st) (hfull : ∀ o ∈ st.subscriptions, o.isSome = true) :
    allocate_id st = (st, .error .maxConcurrentRequestLimitReached) := by
  have hnext : st.next_id < st.subscriptions.length := by rw [hwf.1]; exact hwf.2
  obtain ⟨o, ho⟩ : ∃ o, st.subscriptions[st.next_id]? = some o := by
    rw [List.getElem?_eq_getElem hnext]
    exact ⟨_, rfl⟩
  have hosome := hfull o (List.getElem?_mem ho)
  have hslot : st.subscriptions.getD st.next_id none = o := by
    rw [List.getD_eq_getElem?_getD, ho]; rfl
  have hfind : st.subscriptions.findIdx? (fun opt => opt.isNone) = none := by
    rw [List.findIdx?_eq_none_iff]
    intro x hx
    simp [hfull x hx]
  obtain ⟨s, hs⟩ := Option.isSome_iff_exists.mp hosome
  unfold allocate_id
  rw [hslot, hs, hfind]

end Superchain

namespace Superchain

theorem slotAt_subs_eq {σ : Type} (st st2 : WorkerState σ) (k : Nat)
    (h : st2.subscriptions = st.subscriptions) : slotAt st2 k = slotAt st k := by
  unfold slotAt
  rw [h]

theorem send_request_slot_preserved {σ : Type} (st : WorkerState σ)
    (sender : σ) (sendOk : Bool) (k : Nat) (hk : (slotAt st k).isSome = true) :
    (slotAt (send_request st sender sendOk).1 k).isSome = true := by
  unfold send_request
  cases halloc : allocate_id st with
  | mk st1 r =>
    have hsubs : st1.subscriptions = st.subscriptions := by
      have := allocate_id_subs st
      rw [halloc] at this
      exact this
    cases r with
    | error e =>
        simpa [slotAt, hsubs] using hk
    | ok id =>
        have hid : slotAt st id = none := by
          apply allocate_id_empty st id
          rw [halloc]
        have hne : id ≠ k := by
          intro h
          rw [h] at hid
          rw [hid] at hk
          simp at hk
        have hgoal : ∀ (a : Option σ), ((st1.subscriptions.set id a).getD k none).isSome = true := by
          intro a
          rw [getD_set_ne _ _ _ _ hne, hsubs]
          exact hk
        cases sendOk with
        | true => simpa [slotAt, List.set_set] using hgoal (some sender)
        | false => simpa [slotAt, List.set_set] using hgoal none

end Superchain

namespace Superchain

theorem handle_frame_slot_of_not_end {σ : Type} (fromUtf8 : List Nat → Option String)
    (st : WorkerState σ) (data : List Nat) (k : Nat)
    (hk : ¬ EndsFor k (Event.frame (σ := σ) data)) :
    slotAt (handle_frame fromUtf8 st data).1 k = slotAt st k := by
  unfold handle_frame
  cases hd : Header.try_from_data data with
  | error e => rfl
  | ok hp =>
    obtain ⟨h, p⟩ := hp
    by_cases hend : MsgMarker.hasBits h.marker MsgMarker.END = true
    · have hne : h.id ≠ k := by
        intro heq
        exact hk ⟨data, h, p, rfl, hd, hend, heq⟩
      simp only [hend, if_true]
      unfold slotAt
      exact getD_set_ne _ _ _ _ hne
    · simp only [hend, if_false]
      by_cases hstart : MsgMarker.hasBits h.marker MsgMarker.START = true
      · simp [hstart]
      · simp only [hstart, if_false]
        cases hslot : st.subscriptions.getD h.id none <;> simp [hslot]

theorem WF_allocate_id {σ : Type} (st : WorkerState σ) (hwf : WF st) :
    WF (allocate_id st).1 := by
  unfold allocate_id
  cases st.subscriptions.getD st.next_id none with
  | none => exact ⟨hwf.1, Nat.mod_lt _ (by omega)⟩
  | some s =>
      cases st.subscriptions.findIdx? (fun opt => opt.isNone) with
      | none => exact hwf
      | some i => exact ⟨hwf.1, Nat.mod_lt _ (by omega)⟩

theorem WF_send_request {σ : Type} (st : WorkerState σ) (sender : σ)
    (sendOk : Bool) (hwf : WF st) : WF (send_request st sender sendOk).1 := by
  unfold send_request
  cases halloc : allocate_id st with
  | mk st1 r =>
    have hwf1 : WF st1 := by
      have := WF_allocate_id st hwf
      rw [halloc] at this
      exact this
    cases r with
    | error e => exact hwf1
    | ok id =>
        cases sendOk with
        | true => exact ⟨by simpa using hwf1.1, hwf1.2⟩
        | false => exact ⟨by simpa using hwf1.1, hwf1.2⟩

theorem WF_handle_frame {σ : Type} (fromUtf8 : List Nat → Option String)
    (st : WorkerState σ) (data : List Nat) (hwf : WF st) :
    WF (handle_frame fromUtf8 st data).1 := by
  unfold handle_frame
  cases Header.try_from_data data with
  | error e => exact hwf
  | ok hp =>
    obtain ⟨h, p⟩ := hp
    by_cases hend : MsgMarker.hasBits h.marker MsgMarker.END = true
    · simp only [hend, if_true]
      exact ⟨by simpa using hwf.1, hwf.2⟩
    · simp only [hend, if_false]
      by_cases hstart : MsgMarker.hasBits h.marker MsgMarker.START = true
      · simp only [hstart, if_true]
        exact hwf
      · simp only [hstart, if_false]
        cases st.subscriptions.getD h.id none <;> exact hwf

theorem WF_stepCall {σ : Type} (fromUtf8 : List Nat → Option String)
    (st : WorkerState σ) (e : Event σ) (hwf : WF st) :
    WF (stepCall fromUtf8 st e).1 := by
  cases e with
  | op sender sendOk => exact WF_send_request st sender sendOk hwf
  | frame data => exact WF_handle_frame fromUtf8 st data hwf

theorem slot_preserved_step {σ : Type} (fromUtf8 : List Nat → Option String)
    (st : WorkerState σ) (e : Event σ) (k : Nat)
    (hk : (slotAt st k).isSome = true) (hend : ¬ EndsFor k e) :
    (slotAt (stepCall fromUtf8 st e).1 k).isSome = true := by
  cases e with
  | op sender sendOk => exact send_request_slot_preserved st sender sendOk k hk
  | frame data =>
      rw [show (stepCall fromUtf8 st (Event.frame data)).1 =
        (handle_frame fromUtf8 st data).1 from rfl]
      rw [handle_frame_slot_of_not_end fromUtf8 st data k hend]
      exact hk

end Superchain

namespace Superchain

theorem send_request_alloc {σ : Type} (st : WorkerState σ) (sender : σ)
    (sendOk : Bool) (k : Nat) (h : (send_request st sender sendOk).2.1 = some k) :
    (allocate_id st).2 = .ok k := by
  unfold send_request at h
  cases halloc : allocate_id st with
  | mk st1 r =>
    rw [halloc] at h
    cases r with
    | error e => simp at h
    | ok id =>
        cases sendOk with
        | true => simp at h; simp [h]
        | false => simp at h; simp [h]

theorem stepCall_alloc_empty {σ : Type} (fromUtf8 : List Nat → Option String)
    (st : WorkerState σ) (e : Event σ) (k : Nat)
    (h : (stepCall fromUtf8 st e).2 = some k) : slotAt st k = none := by
  cases e with
  | op sender sendOk =>
      exact allocate_id_empty st k (send_request_alloc st sender sendOk k h)
  | frame data => simp [stepCall] at h

theorem stepCall_op_installs {σ : Type} (fromUtf8 : List Nat → Option String)
    (st : WorkerState σ) (sender : σ) (k : Nat) (hwf : WF st)
    (h : (stepCall fromUtf8 st (Event.op sender true)).2 = some k) :
    (slotAt (stepCall fromUtf8 st (Event.op sender true)).1 k).isSome = true := by
  have halloc : (allocate_id st).2 = .ok k := send_request_alloc st sender true k h
  cases halloc2 : allocate_id st with
  | mk st1 r =>
    rw [halloc2] at halloc
    simp at halloc
    subst halloc
    have hlt : k < 256 := allocate_id_lt st k hwf (by rw [halloc2])
    have hsubs : st1.subscriptions = st.subscriptions := by
      have := allocate_id_subs st
      rw [halloc2] at this
      exact this
    show (slotAt (send_request st sender true).1 k).isSome = true
    unfold send_request
    rw [halloc2]
    simp only [if_true]
    unfold slotAt
    rw [getD_set_self]
    · rfl
    · rw [hsubs, hwf.1]
      exact hlt

theorem statesAfter_take_succ {σ : Type} (fromUtf8 : List Nat → Option String)
    (st : WorkerState σ) (events : List (Event σ)) (t : Nat) (e : Event σ)
    (he : events[t]? = some e) :
    statesAfter fromUtf8 st (events.take (t + 1)) =
      (stepCall fromUtf8 (statesAfter fromUtf8 st (events.take t)) e).1 := by
  unfold statesAfter
  rw [List.take_succ, he, List.foldl_append]
  rfl

theorem WF_statesAfter {σ : Type} (fromUtf8 : List Nat → Option String) :
    ∀ (events : List (Event σ)) (st : WorkerState σ), WF st →
      WF (statesAfter fromUtf8 st events) := by
  intro events
  induction events with
  | nil => intro st hwf; exact hwf
  | cons e rest ih =>
      intro st hwf
      exact ih _ (WF_stepCall fromUtf8 st e hwf)

theorem slot_preserved_fold {σ : Type} (fromUtf8 : List Nat → Option String) :
    ∀ (events : List (Event σ)) (st : WorkerState σ) (k : Nat), WF st →
      (slotAt st k).isSome = true → (∀ e ∈ events, ¬ EndsFor k e) →
      (slotAt (statesAfter fromUtf8 st events) k).isSome = true := by
  intro events
  induction events with
  | nil => intro st k _ hk _; exact hk
  | cons e rest ih =>
      intro st k hwf hk hne
      exact ih _ k (WF_stepCall fromUtf8 st e hwf)
        (slot_preserved_step fromUtf8 st e k hk (hne e (List.mem_cons_self e rest)))
        (fun e2 he2 => hne e2 (List.mem_cons_of_mem e he2))

end Superchain

namespace Superchain

theorem alloc_unique_aux {σ : Type} (fromUtf8 : List Nat → Option String)
    (st0 : WorkerState σ) (hwf : WF st0) (events : List (Event σ))
    (i j k : Nat) (hij : i < j)
    (hi : allocAt fromUtf8 st0 events i = some k)
    (hj : allocAt fromUtf8 st0 events j = some k) :
    (∃ m e, i < m ∧ m < j ∧ events[m]? = some e ∧ EndsFor k e) ∨
    (∃ sender, events[i]? = some (Event.op sender false)) := by
  unfold allocAt at hi hj
  cases hei : events[i]? with
  | none => rw [hei] at hi; simp at hi
  | some ei =>
    rw [hei] at hi
    cases hej : events[j]? with
    | none => rw [hej] at hj; simp at hj
    | some ej =>
      rw [hej] at hj
      cases ei with
      | frame data => simp [stepCall] at hi
      | op sender sendOk =>
        cases sendOk with
        | false => exact Or.inr ⟨sender, rfl⟩
        | true =>
          left
          by_contra hnoend
          push_neg at hnoend
          set sti := statesAfter fromUtf8 st0 (events.take i) with hsti
          have hwfi : WF sti := WF_statesAfter fromUtf8 _ st0 hwf
          have hinst : (slotAt (stepCall fromUtf8 sti (Event.op sender true)).1 k).isSome = true :=
            stepCall_op_installs fromUtf8 sti sender k hwfi hi
          have hsucc : statesAfter fromUtf8 st0 (events.take (i + 1)) =
              (stepCall fromUtf8 sti (Event.op sender true)).1 :=
            statesAfter_take_succ fromUtf8 st0 events i _ hei
      
          have hjlen : j < events.length := by
        
            by_contra hge
            push_neg at hge
            rw [List.getElem?_eq_none hge] at hej
            exact Option.noConfusion hej
          have hseg : events.take (i + 1) ++ (events.take j).drop (i + 1) = events.take j := by
            have h1 : (events.take j).take (i + 1) = events.take (i + 1) := by
              rw [List.take_take]
              simp [Nat.min_eq_left (Nat.succ_le_of_lt hij)]
            calc events.take (i + 1) ++ (events.take j).drop (i + 1)
                = (events.take j).take (i + 1) ++ (events.take j).drop (i + 1) := by rw [h1]
              _ = events.take j := List.take_append_drop _ _
          have hmem : ∀ e ∈ (events.take j).drop (i + 1), ¬ EndsFor k e := by
            intro e he
            obtain ⟨n, hn⟩ := List.mem_iff_getElem?.mp he
            rw [List.getElem?_drop] at hn
            have hlt : i + 1 + n < j := by
              have hn2 := List.getElem?_eq_some_iff.mp hn
              obtain ⟨hbound, -⟩ := hn2
              have : (events.take j).length = j := by
                simp [List.length_take]
                omega
              omega
            rw [List.getElem?_take_of_lt hlt] at hn
            intro hends
            exact hnoend (i + 1 + n) e (by omega) hlt hn hends
          have hwfsucc : WF (statesAfter fromUtf8 st0 (events.take (i + 1))) :=
            WF_statesAfter fromUtf8 _ st0 hwf
          have happ : statesAfter fromUtf8 st0 (events.take j) =
              statesAfter fromUtf8 (statesAfter fromUtf8 st0 (events.take (i + 1)))
                ((events.take j).drop (i + 1)) := by
            conv_lhs => rw [← hseg]
            unfold statesAfter
            rw [List.foldl_append]
          have hpres : (slotAt (statesAfter fromUtf8 st0 (events.take j)) k).isSome = true := by
            rw [happ, hsucc]
            rw [hsucc] at hwfsucc
            exact slot_preserved_fold fromUtf8 _ _ k hwfsucc hinst hmem
          have hempty : slotAt (statesAfter fromUtf8 st0 (events.take j)) k = none :=
            stepCall_alloc_empty fromUtf8 _ ej k hj
          rw [hempty] at hpres
          simp at hpres

end Superchain

namespace Superchain

theorem try_from_data_spec (data : List Nat) :
    Header.try_from_data data =
      if 6 ≤ data.length ∧
          data.getD (data.length - 6) 0 &&& MsgMarker.allBits =
            data.getD (data.length - 6) 0 then
        .ok ({ marker := data.getD (data.length - 6) 0
               id := data.getD (data.length - 5) 0
               counter :=
                 data.getD (data.length - 4) 0 * 2 ^ 24 +
                 data.getD (data.length - 3) 0 * 2 ^ 16 +
                 data.getD (data.length - 2) 0 * 2 ^ 8 +
                 data.getD (data.length - 1) 0 },
             data.take (data.length - 6))
      else
        .error .unexpectedMessageFormat := by
  unfold Header.try_from_data MsgMarker.from_bits
  by_cases hlen : data.length < Header.SIZE
  · rw [if_pos hlen, if_neg]
    intro hc
    unfold Header.SIZE at hlen
    omega
  · rw [if_neg hlen]
    by_cases hm : data.getD (data.length - 6) 0 &&& MsgMarker.allBits =
        data.getD (data.length - 6) 0
    · rw [if_pos hm, if_pos]
      constructor
      · unfold Header.SIZE at hlen
        omega
      · exact hm
    · rw [if_neg hm, if_neg]
      intro hc
      exact hm hc.2

end Superchain

namespace Superchain

/-- C1: decoding an inbound binary buffer succeeds if and only if the buffer
holds at least the 6 header bytes and the marker byte (first byte of the
trailing 6-byte header) only carries bits of the defined set
START 0x01, CONTINUE 0x02, END 0x04, SUBSCRIPTION 0x40, ERROR 0x80; on success
the header is (marker = last-6th byte, id = last-5th byte, counter = last four
bytes big-endian) with the prefix before the header as payload (empty for a
6-byte buffer), and otherwise the decoder fails with UnexpectedMessageFormat. -/
theorem claim_C1_frame_decode (data : List Nat) :
    ((∃ h p, Header.try_from_data data = .ok (h, p)) ↔
      (6 ≤ data.length ∧
        data.getD (data.length - 6) 0 &&& MsgMarker.allBits =
          data.getD (data.length - 6) 0)) ∧
    (∀ h p, Header.try_from_data data = .ok (h, p) →
      h.marker = data.getD (data.length - 6) 0 ∧
      h.id = data.getD (data.length - 5) 0 ∧
      h.counter =
        data.getD (data.length - 4) 0 * 2 ^ 24 +
        data.getD (data.length - 3) 0 * 2 ^ 16 +
        data.getD (data.length - 2) 0 * 2 ^ 8 +
        data.getD (data.length - 1) 0 ∧
      p = data.take (data.length - 6) ∧
      (data.length = 6 → p = [])) ∧
    (¬ (6 ≤ data.length ∧
        data.getD (data.length - 6) 0 &&& MsgMarker.allBits =
          data.getD (data.length - 6) 0) →
      Header.try_from_data data = .error .unexpectedMessageFormat) := by
  rw [try_from_data_spec data]
  by_cases hc : 6 ≤ data.length ∧
      data.getD (data.length - 6) 0 &&& MsgMarker.allBits = data.getD (data.length - 6) 0
  · rw [if_pos hc]
    refine ⟨⟨fun _ => hc, fun _ => ⟨_, _, rfl⟩⟩, ?_, fun hn => absurd hc hn⟩
    intro h p hok
    obtain ⟨hh, hp⟩ := Prod.mk.injEq .. ▸ Except.ok.inj hok
    subst hh
    subst hp
    refine ⟨rfl, rfl, rfl, rfl, ?_⟩
    intro h6
    rw [h6]
    simp
  · rw [if_neg hc]
    refine ⟨⟨?_, fun h => absurd h hc⟩, ?_, fun _ => rfl⟩
    · rintro ⟨h, p, hok⟩
      exact Except.noConfusion hok
    · intro h p hok
      exact Except.noConfusion hok

/-- Witness for C1 at the concrete 8-byte buffer
[9, 9, 5, 7, 1, 2, 3, 4]: decoding succeeds with marker 5, id 7,
counter 0x01020304 and payload [9, 9]. -/
theorem claim_C1_frame_decode_witness :
    Header.try_from_data [9, 9, 5, 7, 1, 2, 3, 4] =
      .ok ({ marker := 5, id := 7, counter := 16909060 }, [9, 9]) ∧
    Header.try_from_data [1, 2, 3, 4, 5] = .error .unexpectedMessageFormat := by
  constructor
  · have h := (claim_C1_frame_decode [9, 9, 5, 7, 1, 2, 3, 4]).1.2 (by decide)
    obtain ⟨h2, p2, hok⟩ := h
    have hdesc := (claim_C1_frame_decode [9, 9, 5, 7, 1, 2, 3, 4]).2.1 h2 p2 hok
    obtain ⟨hm, hid, hcnt, hp, -⟩ := hdesc
    rw [hok]
    congr 1
    refine Prod.ext ?_ ?_
    · simp only []
      cases h2 with
      | mk m i c =>
        simp at hm hid hcnt ⊢
        exact ⟨hm, hid, hcnt⟩
    · simpa using hp
  · exact (claim_C1_frame_decode [1, 2, 3, 4, 5]).2.2 (by decide)

end Superchain

namespace Superchain

theorem runLoop_cons {σ : Type} (fromUtf8 : List Nat → Option String)
    (st : WorkerState σ) (e : Event σ) (rest : List (Event σ)) :
    runLoop fromUtf8 st (e :: rest) =
      (match stepLoop fromUtf8 st e with
       | .error err => .error err
       | .ok st1 => runLoop fromUtf8 st1 rest) := rfl

theorem stepLoop_frame {σ : Type} (fromUtf8 : List Nat → Option String)
    (st : WorkerState σ) (data : List Nat) :
    stepLoop fromUtf8 st (Event.frame data) =
      (match handle_frame fromUtf8 st data with
       | (st1, _, .ok ()) => .ok st1
       | (_, _, .error e) => .error e) := rfl

end Superchain

namespace Superchain

/-- C2: over any sequence of table operations on a well-formed worker state,
an id `k` returned by a successful allocation at position `i` is returned
again at a later position `j` only if an END frame for `k` was processed
strictly in between or the socket send of `k`'s own request failed; and after
an END frame for id `k` is processed a subsequent allocation may return `k`
again, as the concrete call sequence `demoEvents` from the initial state
shows (id 0 is allocated at position 0, an END frame for id 0 is processed at
position 256, and the allocation at position 257 returns id 0 again). -/
theorem claim_C2_id_allocation_unique :
    (∀ (σ : Type) (fromUtf8 : List Nat → Option String) (st0 : WorkerState σ)
        (events : List (Event σ)) (i j k : Nat),
        WF st0 → i < j →
        allocAt fromUtf8 st0 events i = some k →
        allocAt fromUtf8 st0 events j = some k →
        (∃ m e, i < m ∧ m < j ∧ events[m]? = some e ∧ EndsFor k e) ∨
        (∃ sender, events[i]? = some (Event.op sender false))) ∧
    (allocAt noUtf8 (initState Nat) demoEvents 0 = some 0 ∧
      (∃ e, demoEvents[256]? = some e ∧ EndsFor 0 e) ∧
      allocAt noUtf8 (initState Nat) demoEvents 257 = some 0) := by
  constructor
  · intro σ fromUtf8 st0 events i j k hwf hij hi hj
    exact alloc_unique_aux fromUtf8 st0 hwf events i j k hij hi hj
  · refine ⟨by decide, ⟨Event.frame [4, 0, 0, 0, 0, 1], by decide, ?_⟩, by decide⟩
    exact ⟨[4, 0, 0, 0, 0, 1], { marker := 4, id := 0, counter := 1 }, [],
      rfl, by decide, by decide, rfl⟩

/-- Witness for C2 on the concrete sequence `reuseEvents` from `reuseState`:
the allocations at positions 0 and 2 both return id 255, and the theorem
places an END frame for 255 in between (position 1). -/
theorem claim_C2_id_allocation_unique_witness :
    (∃ m e, 0 < m ∧ m < 2 ∧ reuseEvents[m]? = some e ∧ EndsFor 255 e) ∨
    (∃ sender, reuseEvents[0]? = some (Event.op sender false)) :=
  claim_C2_id_allocation_unique.1 Nat noUtf8 reuseState reuseEvents 0 2 255
    (by constructor
        · decide
        · decide)
    (by omega) (by decide) (by decide)

/-- C3 counterexample: the 6-byte END frame [4, 0, 0, 0, 0, 0] references
id 0, whose slot is empty in the initial table, yet `handle_msg` succeeds and
the event loop keeps running instead of failing with UnknownResponseId. -/
theorem claim_C3_counterexample :
    runLoop noUtf8 (initState Nat) [Event.frame [4, 0, 0, 0, 0, 0]] =
      .ok (initState Nat) ∧
    (handle_frame noUtf8 (initState Nat) [4, 0, 0, 0, 0, 0]).2.2 = .ok () := by
  constructor
  · decide
  · decide

/-- C3 amended: an inbound binary frame whose header decodes with neither the
END nor the START bit set (so it takes the data or error delivery path) and
whose id refers to an empty slot makes `handle_msg` fail with
UnknownResponseId, which terminates the multiplexer's event loop; frames with
END or START set succeed even on an empty slot. -/
theorem claim_C3_unknown_id_amended {σ : Type}
    (fromUtf8 : List Nat → Option String) (st : WorkerState σ)
    (data : List Nat) (h : Header) (p : List Nat) (rest : List (Event σ))
    (hdec : Header.try_from_data data = .ok (h, p))
    (hend : MsgMarker.hasBits h.marker MsgMarker.END = false)
    (hstart : MsgMarker.hasBits h.marker MsgMarker.START = false)
    (hslot : slotAt st h.id = none) :
    handle_frame fromUtf8 st data = (st, none, .error .unknownResponseId) ∧
    runLoop fromUtf8 st (Event.frame data :: rest) =
      .error .unknownResponseId := by
  have hh : handle_frame fromUtf8 st data = (st, none, .error .unknownResponseId) := by
    unfold handle_frame
    rw [hdec]
    simp only [hend, hstart, Bool.false_eq_true, if_false]
    rw [show st.subscriptions.getD h.id none = none from hslot]
  have hstep : stepLoop fromUtf8 st (Event.frame data) = .error .unknownResponseId := by
    rw [stepLoop_frame, hh]
  refine ⟨hh, ?_⟩
  rw [runLoop_cons, hstep]

/-- Witness for C3 amended at the CONTINUE frame [2, 0, 0, 0, 0, 0] against
the initial (all-empty) table. -/
theorem claim_C3_unknown_id_amended_witness :
    handle_frame noUtf8 (initState Nat) [2, 0, 0, 0, 0, 0] =
      (initState Nat, none, .error .unknownResponseId) ∧
    runLoop noUtf8 (initState Nat) [Event.frame [2, 0, 0, 0, 0, 0]] =
      .error .unknownResponseId :=
  claim_C3_unknown_id_amended noUtf8 (initState Nat) [2, 0, 0, 0, 0, 0]
    { marker := 2, id := 0, counter := 0 } [] []
    (by decide) (by decide) (by decide) (by decide)

/-- C4: when all 256 slots are occupied, `allocate_id` fails with
MaxConcurrentRequestLimitReached and returns the state unchanged (so the table
contents are exactly as before), and `send_request` likewise fails without
installing, removing or replacing any sink. -/
theorem claim_C4_full_table {σ : Type} (st : WorkerState σ)
    (hlen : st.subscriptions.length = 256) (hnext : st.next_id < 256)
    (hfull : ∀ o ∈ st.subscriptions, o.isSome = true) :
    allocate_id st = (st, .error .maxConcurrentRequestLimitReached) ∧
    ∀ (sender : σ) (sendOk : Bool),
      send_request st sender sendOk =
        (st, none, .error .maxConcurrentRequestLimitReached) := by
  have h1 := allocate_id_full st ⟨hlen, hnext⟩ hfull
  refine ⟨h1, ?_⟩
  intro sender sendOk
  unfold send_request
  rw [h1]

/-- Witness for C4 at the concrete fully-occupied table `fullState`. -/
theorem claim_C4_full_table_witness :
    allocate_id fullState = (fullState, .error .maxConcurrentRequestLimitReached) ∧
    ∀ (sender : Nat) (sendOk : Bool),
      send_request fullState sender sendOk =
        (fullState, none, .error .maxConcurrentRequestLimitReached) :=
  claim_C4_full_table fullState (by decide) (by decide) (by decide)

/-- C5 counterexample: on the full table with `next_id = 0` the allocation
attempt fails, and `next_id` stays 0 instead of becoming (0 + 1) % 256 = 1 as
the claim requires for every call. -/
theorem claim_C5_counterexample :
    (allocate_id fullState).2 = .error .maxConcurrentRequestLimitReached ∧
    (allocate_id fullState).1.next_id ≠ (fullState.next_id + 1) % 256 := by
  constructor
  · decide
  · decide

/-- C5 amended: a successful `allocate_id` call leaves `next_id` equal to its
previous value plus one under 8-bit wrapping arithmetic, but a failed call
(table full, MaxConcurrentRequestLimitReached) returns before the increment
and leaves the whole state, `next_id` included, unchanged. -/
theorem claim_C5_next_id_amended {σ : Type} (st : WorkerState σ) :
    (∀ k, (allocate_id st).2 = .ok k →
      (allocate_id st).1.next_id = (st.next_id + 1) % 256) ∧
    (∀ e, (allocate_id st).2 = .error e →
      (allocate_id st).1 = st) := by
  unfold allocate_id
  cases st.subscriptions.getD st.next_id none with
  | none =>
      refine ⟨fun k _ => rfl, fun e he => ?_⟩
      exact absurd he (by simp)
  | some s =>
      cases st.subscriptions.findIdx? (fun opt => opt.isNone) with
      | some i =>
          refine ⟨fun k _ => rfl, fun e he => ?_⟩
          exact absurd he (by simp)
      | none => exact ⟨fun k hk => absurd hk (by simp), fun e _ => rfl⟩

/-- Witness for C5 amended: a successful call on the initial state steps
`next_id` from 0 to 1, and the failing call on the full table leaves the state
unchanged. -/
theorem claim_C5_next_id_amended_witness :
    (allocate_id (initState Nat)).1.next_id = ((initState Nat).next_id + 1) % 256 ∧
    (allocate_id fullState).1 = fullState :=
  ⟨(claim_C5_next_id_amended (initState Nat)).1 0 (by decide),
   (claim_C5_next_id_amended fullState).2 Error.maxConcurrentRequestLimitReached (by decide)⟩

/-- C6: an inbound binary frame that decodes with the END bit set (the START
bit may be set as well) makes `handle_msg` free the slot of the frame's id,
deliver no item to any sink, ignore the payload, and return success. -/
theorem claim_C6_end_frame {σ : Type} (fromUtf8 : List Nat → Option String)
    (st : WorkerState σ) (data : List Nat) (h : Header) (p : List Nat)
    (hdec : Header.try_from_data data = .ok (h, p))
    (hend : MsgMarker.hasBits h.marker MsgMarker.END = true) :
    handle_frame fromUtf8 st data =
      ({ st with subscriptions := st.subscriptions.set h.id none },
       none, .ok ()) := by
  unfold handle_frame
  rw [hdec]
  simp only [hend, if_true]

/-- Witness for C6 at the START+END frame [5, 3, 0, 0, 0, 0] (marker 0x05) on
the fully occupied table: slot 3 is freed, nothing is delivered, the call
succeeds. -/
theorem claim_C6_end_frame_witness :
    handle_frame noUtf8 fullState [5, 3, 0, 0, 0, 0] =
      ({ fullState with subscriptions := fullState.subscriptions.set 3 none },
       none, .ok ()) :=
  claim_C6_end_frame noUtf8 fullState [5, 3, 0, 0, 0, 0]
    { marker := 5, id := 3, counter := 0 } [] (by decide) (by decide)

/-- C7: the WebSocket `get_height` interprets the first binary payload of the
response stream as exactly 8 bytes in host byte order (little-endian hosts
decode [0x2A, 0, 0, 0, 0, 0, 0, 0] to 42) and fails when the stream yields no
payload or the first payload is not exactly 8 bytes long. -/
theorem claim_C7_ws_get_height (rest : List WsMsg) (littleEndian : Bool)
    (bytes : List Nat) :
    ws_get_height (.ok bytes :: rest) littleEndian =
      (if bytes.length = 8 then .ok (u64_from_ne_bytes littleEndian bytes)
       else .error (.custom "failed to collect bytes for height bytes")) ∧
    ws_get_height [] littleEndian =
      .error (.custom "empty response from websocket") ∧
    ws_get_height (.ok [42, 0, 0, 0, 0, 0, 0, 0] :: rest) true = .ok 42 := by
  refine ⟨rfl, rfl, rfl⟩

/-- C8 counterexample: the serde-derived `Side` decoder rejects the strings
"Buy" and "Sell" (its `rename` attributes make "true"/"false" the only wire
names), contradicting the claim that both historical encodings decode. -/
theorem claim_C8_counterexample :
    Side.deserialize "Buy" = none ∧ Side.deserialize "Sell" = none := by
  constructor
  · decide
  · decide

/-- C8 amended: deserializing a `Side` value accepts exactly the boolean-style
historical encoding, "true" decoding to Buy and "false" to Sell, and rejects
the strings "Buy" and "Sell". -/
theorem claim_C8_side_decoding_amended :
    Side.deserialize "true" = some Side.Buy ∧
    Side.deserialize "false" = some Side.Sell ∧
    Side.deserialize "Buy" = none ∧
    Side.deserialize "Sell" = none := by
  refine ⟨by decide, by decide, by decide, by decide⟩

/-- C9: evaluation of the code at the failing input. `http::Client::get_height`
builds its GET request from the literal string "/api/eth/height": unlike the
`request`-based operations it neither resolves the path under the configured
`base_url` (the built request is the same for every client configuration) nor
attaches the configured default header map, so on `authedClient` the request
carries no headers even though the client's header map is non-empty. -/
theorem claim_C9_get_height_request :
    (http_get_height_request authedClient).headers = [] ∧
    authedClient.headers ≠ [] ∧
    (http_get_height_request authedClient).url = "/api/eth/height" ∧
    (∀ c : HttpClient, http_get_height_request c = http_get_height_request authedClient) ∧
    (∀ url : String,
      (http_request_built authedClient url).headers = authedClient.headers) := by
  refine ⟨rfl, by decide, rfl, fun c => rfl, fun url => rfl⟩

/-- C10: an inbound binary frame that decodes with the END bit set and whose
id refers to an empty slot leaves the table exactly as it was, delivers
nothing, returns success, and the event loop continues with the rest of its
schedule. -/
theorem claim_C10_end_frame_empty_slot {σ : Type}
    (fromUtf8 : List Nat → Option String) (st : WorkerState σ)
    (data : List Nat) (h : Header) (p : List Nat) (rest : List (Event σ))
    (hdec : Header.try_from_data data = .ok (h, p))
    (hend : MsgMarker.hasBits h.marker MsgMarker.END = true)
    (hslot : slotAt st h.id = none) :
    handle_frame fromUtf8 st data = (st, none, .ok ()) ∧
    runLoop fromUtf8 st (Event.frame data :: rest) = runLoop fromUtf8 st rest := by
  have hs : st.subscriptions.set h.id none = st.subscriptions :=
    set_none_of_getD_none _ _ hslot
  have hh : handle_frame fromUtf8 st data = (st, none, .ok ()) := by
    unfold handle_frame
    rw [hdec]
    simp only [hend, if_true, hs]
  have hstep : stepLoop fromUtf8 st (Event.frame data) = .ok st := by
    rw [stepLoop_frame, hh]
  refine ⟨hh, ?_⟩
  rw [runLoop_cons, hstep]

/-- Witness for C10 at the END frame [4, 9, 0, 0, 0, 0] whose id 9 is empty in
the initial table, with one further scheduled event. -/
theorem claim_C10_end_frame_empty_slot_witness :
    handle_frame noUtf8 (initState Nat) [4, 9, 0, 0, 0, 0] =
      (initState Nat, none, .ok ()) ∧
    runLoop noUtf8 (initState Nat)
        [Event.frame [4, 9, 0, 0, 0, 0], Event.op 5 true] =
      runLoop noUtf8 (initState Nat) [Event.op 5 true] :=
  claim_C10_end_frame_empty_slot noUtf8 (initState Nat) [4, 9, 0, 0, 0, 0]
    { marker := 4, id := 9, counter := 0 } [] [Event.op 5 true]
    (by decide) (by decide) (by decide)

end Superchain
